import Mathlib

/-!
Verification of the lead status transition engine of the propertyscout
repository: the status catalog, the suggestion ranking performed in
`StatusDropdown.loadStatusOptions` (src/components/StatusDropdown.jsx) and
`_getAllStatusOptions` (src/api/properties.js), the batch loader and cache of
`StatusTransitionsContext` (src/contexts/StatusTransitionsContext.jsx), and the
status update executor `handleStatusChange` / `_setPropertyLeadStatus`.

JavaScript values are embedded as follows: strings are `String`, numbers that
hold transition weights are `Int`, arrays are `List`, a JS `Map` is an
association list that preserves insertion order (`Map.set` updates in place
when the key exists, else appends), a JS `Set` is a duplicate-free `List` with
append-on-add, and a function that can throw is an `Except`.
-/

namespace PropertyScout

/-- The fixed status catalog `LEAD_STATUS_VALUES` (src/api/properties.js
lines 5-9): the ten pipeline stages, in declaration order. -/
def LEAD_STATUS_VALUES : List String :=
  ["prospect_found", "contacted", "responded", "proposal_sent",
   "booked", "shoot_completed", "delivered", "paid",
   "closed_won", "closed_lost"]

/-- A transition edge as returned by the backend for a lead: the rows of
`lead_transitions` selected in src/api/properties.js (`to_status, weight,
description`). -/
structure Transition where
  to_status : String
  weight : Int
  description : String
deriving Repr, DecidableEq

/-- The derived per-status option built by `loadStatusOptions`
(src/components/StatusDropdown.jsx lines 128-136) and `_getAllStatusOptions`
(src/api/properties.js lines 324-332). -/
structure StatusOption where
  to_status : String
  weight : Int
  description : String
  isValid : Bool
deriving Repr, DecidableEq

/-- Lookup in the `transitionMap` built by
`transitions.forEach(t => transitionMap.set(t.to_status, ...))`
(StatusDropdown.jsx lines 113-122): for duplicate `to_status` keys the last
`set` wins, hence the search over the reversed list. -/
def transitionMapGet (ts : List Transition) (s : String) : Option Transition :=
  ts.reverse.find? (fun t => t.to_status == s)

/-- One entry of the option list (StatusDropdown.jsx lines 128-136):
`weight: transition?.weight || 0` (`w || 0 = w` for every integer except that
`0 || 0 = 0`, so it equals the stored weight), `description:
transition?.description || "Manual status change"` (the default also applies
to an empty string, which is falsy in JS), `isValid: transition?.isValid ||
false` (entries of the map always carry `isValid: true`). -/
def buildOption (ts : List Transition) (s : String) : StatusOption :=
  match transitionMapGet ts s with
  | some t =>
      { to_status := s, weight := t.weight,
        description := if t.description = "" then "Manual status change" else t.description,
        isValid := true }
  | none =>
      { to_status := s, weight := 0, description := "Manual status change",
        isValid := false }

/-- The unsorted option list (StatusDropdown.jsx lines 124-136): every catalog
status except the current one, in catalog order, each filled from the
transition map or defaulted. -/
def buildOptions (currentStatus : String) (ts : List Transition) : List StatusOption :=
  (LEAD_STATUS_VALUES.filter (fun s => s ≠ currentStatus)).map (buildOption ts)

/-- The order realised by the comparator of StatusDropdown.jsx lines 139-143:
`a` may precede `b` exactly when the comparator returns a value `≤ 0`, i.e.
`a` is valid and `b` is not, or both have the same validity and
`b.weight - a.weight ≤ 0`. -/
def optionLE (a b : StatusOption) : Prop :=
  (a.isValid = true ∧ b.isValid = false) ∨ (a.isValid = b.isValid ∧ b.weight ≤ a.weight)

instance : DecidableRel optionLE := fun a b => by
  unfold optionLE
  infer_instance

instance : IsTotal StatusOption optionLE := by
  constructor
  intro a b
  unfold optionLE
  cases ha : a.isValid <;> cases hb : b.isValid <;> simp <;> omega

instance : IsTrans StatusOption optionLE := by
  constructor
  intro a b c hab hbc
  unfold optionLE at *
  cases ha : a.isValid <;> cases hb : b.isValid <;> cases hc : c.isValid <;>
    simp [ha, hb, hc] at * <;> omega

/-- Embeds `options.sort(comparator)` of StatusDropdown.jsx lines 139-143.
`Array.prototype.sort` is specified (ES2019) to be stable, and the comparator
is a consistent total preorder, so the result is the stable sort by
`optionLE`; insertion sort is stable, so it realises the same list. -/
def sortOptions (l : List StatusOption) : List StatusOption :=
  List.insertionSort optionLE l

/-- The full ranking pipeline of `loadStatusOptions` (StatusDropdown.jsx lines
112-143), identical to the one in `loadStatusOptionsFallback` (lines 184-215)
and `_getAllStatusOptions` (src/api/properties.js lines 310-339). -/
def rankOptions (currentStatus : String) (ts : List Transition) : List StatusOption :=
  sortOptions (buildOptions currentStatus ts)

-- Scenario from spec section 8, restricted to the real catalog: a single
-- 80-weight edge to "contacted" from "prospect_found".
example :
    (rankOptions "prospect_found" [⟨"contacted", 80, "d1"⟩]).map
      (fun o => (o.to_status, o.weight, o.isValid)) =
    [("contacted", 80, true), ("responded", 0, false), ("proposal_sent", 0, false),
     ("booked", 0, false), ("shoot_completed", 0, false), ("delivered", 0, false),
     ("paid", 0, false), ("closed_won", 0, false), ("closed_lost", 0, false)] := by
  decide

/-! ### The transitions cache and batch loader (`StatusTransitionsContext.jsx`) -/

/-- The JS `Map` from lead id to the cached transition list, as an insertion
ordered association list: `Map.set` replaces the value in place when the key
is present and appends otherwise. -/
abbrev Cache := List (String × List Transition)

/-- Embeds `transitionsCache.get(id)`, as an `Option`.  `getTransitionsForLead`
postcomposes `|| null` (line 75); a stored array is always truthy in JS, so
the option is already faithful. -/
def cacheGet (c : Cache) (id : String) : Option (List Transition) :=
  (c.find? (fun e => e.1 == id)).map (fun e => e.2)

/-- Embeds `transitionsCache.has(id)` (line 26). -/
def cacheHas (c : Cache) (id : String) : Bool :=
  (c.find? (fun e => e.1 == id)).isSome

/-- Embeds `map.set(id, v)` for the JS `Map`: update in place when present, append
otherwise. -/
def cacheSet (c : Cache) (id : String) (v : List Transition) : Cache :=
  if cacheHas c id then c.map (fun e => if e.1 == id then (id, v) else e)
  else c ++ [(id, v)]

/-- Embeds `newSet.add(id)` for the JS `Set` of loading lead ids (line 37). -/
def setAdd (l : List String) (id : String) : List String :=
  if l.contains id then l else l ++ [id]

/-- Embeds `newSet.delete(id)` for the JS `Set` of loading lead ids (line 67). -/
def setDelete (l : List String) (id : String) : List String :=
  l.filter (fun x => x != id)

/-- The component state of `StatusTransitionsProvider`
(StatusTransitionsContext.jsx lines 16-18). -/
structure CtxState where
  transitionsCache : Cache
  loadingLeadIds : List String
  loadingBatch : Bool
deriving Repr, DecidableEq

/-- Initial state of the provider: empty cache, no loading ids. -/
def initialCtx : CtxState := ⟨[], [], false⟩

/-- The value produced by `safeAPICall(getLeadTransitionsBatch, ...)`
(src/api/index.js lines 44-56): `{success: true, data}` on a normal return,
`{success: false, error}` when the wrapped call throws.  The data of
`get_lead_transitions_batch` is an object keyed by lead id
(`Object.entries(result.data)` in the loader), listed here in entry order. -/
inductive APIResult where
  | success (data : List (String × List Transition))
  | failure (error : String)
deriving Repr, DecidableEq

/-- The filter of StatusTransitionsContext.jsx line 26:
`leadIds.filter(id => !transitionsCache.has(id) && !loadingLeadIds.has(id))`. -/
def uncachedIdsOf (s : CtxState) (leadIds : List String) : List String :=
  leadIds.filter (fun id => !cacheHas s.transitionsCache id && !s.loadingLeadIds.contains id)

/-- The authoritative React state together with the network requests issued so
far (each request is the id list passed to `getLeadTransitionsBatch`). -/
structure World where
  auth : CtxState
  calls : List (List String)
deriving Repr, DecidableEq

/-- The synchronous prefix of `loadTransitionsForLeads`
(StatusTransitionsContext.jsx lines 20-44), up to and including issuing the
network request at the `await` of line 44, as executed by a callback whose
closure captured the render snapshot `snap`: the guard of line 21, the
uncached filter of line 26 and the early return of line 28 read the snapshot
variables `transitionsCache` and `loadingLeadIds`, while the functional update
`setLoadingLeadIds(prev => ...)` (lines 35-39) and `setLoadingBatch(true)`
(line 41) apply to the authoritative state.  Returns the updated world and the
`uncachedLeadIds` carried into the continuation (`none` when the call returned
before fetching). -/
def loadBatchPhase1 (snap : CtxState) (leadIds : List String) (w : World) :
    World × Option (List String) :=
  if leadIds.isEmpty then (w, none)
  else
    let uncached := uncachedIdsOf snap leadIds
    if uncached.isEmpty then (w, none)
    else
      let auth1 : CtxState :=
        { w.auth with
            loadingLeadIds := uncached.foldl setAdd w.auth.loadingLeadIds,
            loadingBatch := true }
      (⟨auth1, w.calls ++ [uncached]⟩, some uncached)

/-- The continuation of `loadTransitionsForLeads` after the `await`
(StatusTransitionsContext.jsx lines 46-71): on success it builds
`newTransitions = new Map(transitionsCache)` from the snapshot cache of the closure,
sets every entry of `result.data` into it and stores the result; on failure
(`result.success` false, or a thrown error reaching the `catch`) it only logs;
the `finally` block removes `uncachedLeadIds` from the authoritative loading
set and clears `loadingBatch`. -/
def loadBatchPhase2 (snap : CtxState) (uncached : List String) (resp : APIResult)
    (w : World) : World :=
  let auth1 : CtxState :=
    match resp with
    | .success data =>
        { w.auth with
            transitionsCache :=
              data.foldl (fun c e => cacheSet c e.1 e.2) snap.transitionsCache }
    | .failure _ => w.auth
  { w with
      auth :=
        { auth1 with
            loadingLeadIds := uncached.foldl setDelete auth1.loadingLeadIds,
            loadingBatch := false } }

/-- One complete, uninterleaved run of `loadTransitionsForLeads`
(StatusTransitionsContext.jsx lines 20-72) from state `s`: the snapshot and
the authoritative state coincide at the start, and no other task runs between
the two phases.  Here `resp` maps the requested id list to the answer of the backend.
Returns the final state and the network request issued (`none` when no fetch
happened). -/
def loadTransitionsForLeads (s : CtxState) (leadIds : List String)
    (resp : List String → APIResult) : CtxState × Option (List String) :=
  match loadBatchPhase1 s leadIds ⟨s, []⟩ with
  | (w, none) => (w.auth, none)
  | (w, some uncached) =>
      ((loadBatchPhase2 s uncached (resp uncached) w).auth, some uncached)

/-- Embeds `getTransitionsForLead` (StatusTransitionsContext.jsx lines 74-78). -/
def getTransitionsForLead (s : CtxState) (leadId : String) : Option (List Transition) :=
  cacheGet s.transitionsCache leadId

/-- Embeds `isLeadLoading` (StatusTransitionsContext.jsx lines 80-82). -/
def isLeadLoading (s : CtxState) (leadId : String) : Bool :=
  s.loadingLeadIds.contains leadId

/-! ### Status update executor (`StatusDropdown.jsx`, `properties.js`, PropertyLeads) -/

/-- The slice of a lead the engine reads and writes (id and current status);
`handleStatusUpdate` also refreshes `updated_at` from the wall clock, which is
outside the model. -/
structure Lead where
  id : String
  status : String
deriving Repr, DecidableEq

/-- Result of `safeAPICall(setPropertyLeadStatus, ...)` as observed by
`handleStatusChange`: only `result.success` and `result.error` are
inspected. -/
inductive UpdateResult where
  | success
  | failure (error : String)
deriving Repr, DecidableEq

/-- Embeds `handleStatusUpdate` of the PropertyLeads container: on a successful
status change it maps over the local lead list and rewrites the status of the
lead with the matching id.  Nothing else is touched: no reload and no cache
invalidation ("No need to reload - the status has been updated locally"). -/
def handleStatusUpdate (leads : List Lead) (leadId newStatus : String) : List Lead :=
  leads.map (fun l => if l.id == leadId then { l with status := newStatus } else l)

/-- The state visible to one `StatusDropdown` and its container: the shared
transitions context, the local lead list of the container, and the `updating`
flag of the dropdown. -/
structure AppState where
  ctx : CtxState
  leads : List Lead
  updating : Bool
deriving Repr, DecidableEq

/-- One complete run of `handleStatusChange` (StatusDropdown.jsx lines
242-270) for the row of `lead`: the guard of line 243 (`newStatus ===
lead.status || updating`) returns before any network call; otherwise
`updating` is set, the remote call is issued (its outcome is `resp`), on
success `onStatusUpdate(lead.id, newStatus)` runs the
`handleStatusUpdate` of the container, on failure only an alert is shown, and `finally` clears
`updating`.  Returns the new state and whether a network call was issued. -/
def handleStatusChange (s : AppState) (lead : Lead) (newStatus : String)
    (resp : UpdateResult) : AppState × Bool :=
  if newStatus == lead.status || s.updating then (s, false)
  else
    let s1 :=
      match resp with
      | .success => { s with leads := handleStatusUpdate s.leads lead.id newStatus }
      | .failure _ => s
    ({ s1 with updating := false }, true)

/-- The pattern used by `validateInput.uuid`, namely
`^[0-9a-f]{8}-[0-9a-f]{4}-4[0-9a-f]{3}-[89ab][0-9a-f]{3}-[0-9a-f]{12}$/i`
(src/unnamed/part_000): hexadecimal digit, either case. -/
def isHexChar (c : Char) : Bool :=
  c.isDigit || ('a' ≤ c && c ≤ 'f') || ('A' ≤ c && c ≤ 'F')

/-- The per-position character classes of the UUID pattern. -/
def uuidPattern : List (Char → Bool) :=
  List.replicate 8 isHexChar ++ [fun c => c == '-'] ++
  List.replicate 4 isHexChar ++ [fun c => c == '-'] ++
  [fun c => c == '4'] ++ List.replicate 3 isHexChar ++ [fun c => c == '-'] ++
  [fun c => c == '8' || c == '9' || c == 'a' || c == 'b' || c == 'A' || c == 'B'] ++
  List.replicate 3 isHexChar ++ [fun c => c == '-'] ++
  List.replicate 12 isHexChar

/-- Embeds `uuidPattern.test(value)` of `validateInput.uuid`. -/
def isUuid (s : String) : Bool :=
  s.data.length == uuidPattern.length &&
  (s.data.zip uuidPattern).all (fun p => p.2 p.1)

/-- Embeds `_setPropertyLeadStatus` (src/api/properties.js lines 262-283) up to its
I/O boundary: `validateInput.uuid(leadId, true)` throws on a malformed id,
then `validateInput.enum(status, LEAD_STATUS_VALUES, true)` throws when the
status is not in the catalog (src/unnamed/part_000); only if both pass is the
`set_property_lead_status` RPC issued, with the validated arguments.
`Except.error` is a thrown validation error, before any network call. -/
def setPropertyLeadStatus (leadId status : String) : Except String (String × String) :=
  if !isUuid leadId then Except.error "Invalid UUID format"
  else if !LEAD_STATUS_VALUES.contains status then
    Except.error "Value must be one of the allowed values"
  else Except.ok (leadId, status)

/-! ### The cache read of the widget (`StatusDropdown.loadStatusOptions`) -/

/-- The three branches of `loadStatusOptions` (StatusDropdown.jsx lines
100-168). -/
inductive LoadAction where
  | useBatch (options : List StatusOption)
  | wait
  | fallback
deriving Repr, DecidableEq

/-- The dispatch of `loadStatusOptions` on the context read for the lead of
the widget (StatusDropdown.jsx lines 106-167): `transitions !== null` uses the batch
data (computing the ranked options), otherwise a lead marked loading waits,
and only a lead that is neither populated nor loading falls back to the
individual fetch `loadStatusOptionsFallback`. -/
def loadStatusOptions (s : CtxState) (lead : Lead) : LoadAction :=
  match getTransitionsForLead s lead.id with
  | some ts => .useBatch (rankOptions lead.status ts)
  | none => if isLeadLoading s lead.id then .wait else .fallback

/-! ### Helper lemmas about the ranker -/

theorem to_status_buildOption (ts : List Transition) (s : String) :
    (buildOption ts s).to_status = s := by
  unfold buildOption
  cases transitionMapGet ts s <;> rfl

theorem weight_buildOption (ts : List Transition) (s : String)
    (h : (buildOption ts s).isValid = false) : (buildOption ts s).weight = 0 := by
  unfold buildOption at *
  cases hm : transitionMapGet ts s
  · simp [hm]
  · simp [hm] at h

theorem map_to_status_buildOptions (c : String) (ts : List Transition) :
    (buildOptions c ts).map StatusOption.to_status
      = LEAD_STATUS_VALUES.filter (fun s => s ≠ c) := by
  unfold buildOptions
  rw [List.map_map]
  have h : ∀ s ∈ LEAD_STATUS_VALUES.filter (fun s => s ≠ c),
      (StatusOption.to_status ∘ buildOption ts) s = id s := by
    intro s _
    simp [to_status_buildOption]
  rw [List.map_congr_left h, List.map_id]

theorem mem_buildOptions (c : String) (ts : List Transition) (o : StatusOption) :
    o ∈ buildOptions c ts ↔
      ∃ s, s ∈ LEAD_STATUS_VALUES ∧ s ≠ c ∧ o = buildOption ts s := by
  unfold buildOptions
  simp only [List.mem_map, List.mem_filter]
  constructor
  · rintro ⟨s, ⟨hs, hne⟩, rfl⟩
    exact ⟨s, hs, by simpa using hne, rfl⟩
  · rintro ⟨s, hs, hne, rfl⟩
    exact ⟨s, ⟨hs, by simpa using hne⟩, rfl⟩

theorem rankOptions_perm (c : String) (ts : List Transition) :
    (rankOptions c ts).Perm (buildOptions c ts) :=
  List.perm_insertionSort _ _

/-- Inserting an element that fails `P` does not change the `P`-filtered
list. -/
theorem filter_orderedInsert_neg {α : Type} (r : α → α → Prop) [DecidableRel r]
    (P : α → Bool) (a : α) (l : List α) (ha : P a = false) :
    (List.orderedInsert r a l).filter P = l.filter P := by
  induction l with
  | nil => simp [ha]
  | cons b l ih =>
    by_cases hr : r a b
    · simp [List.orderedInsert, hr, ha]
    · simp [List.orderedInsert, hr, List.filter_cons, ih]

/-- Inserting an element that satisfies `P` and compares `r`-before every
`P`-element of the list prepends it to the `P`-filtered list. -/
theorem filter_orderedInsert_pos {α : Type} (r : α → α → Prop) [DecidableRel r]
    (P : α → Bool) (a : α) (l : List α) (ha : P a = true)
    (h : ∀ b ∈ l, P b = true → r a b) :
    (List.orderedInsert r a l).filter P = a :: l.filter P := by
  induction l with
  | nil => simp [ha]
  | cons b l ih =>
    by_cases hr : r a b
    · simp [List.orderedInsert, hr, ha]
    · have hb : P b = false := by
        cases hPb : P b
        · rfl
        · exact absurd (h b (List.mem_cons_self b l) hPb) hr
      simp [List.orderedInsert, hr, List.filter_cons, hb]
      exact ih (fun x hx hP => h x (List.mem_cons_of_mem _ hx) hP)

/-- Stability of insertion sort on a class of mutually tied elements: the
`P`-filtered sublist is unchanged when all `P`-elements are pairwise related
by `r`. -/
theorem filter_insertionSort {α : Type} (r : α → α → Prop) [DecidableRel r]
    (P : α → Bool) (hclass : ∀ x y, P x = true → P y = true → r x y)
    (l : List α) :
    (List.insertionSort r l).filter P = l.filter P := by
  induction l with
  | nil => rfl
  | cons x l ih =>
    cases hx : P x
    · rw [List.insertionSort, filter_orderedInsert_neg r P _ _ hx, ih]
      simp [List.filter_cons, hx]
    · rw [List.insertionSort,
        filter_orderedInsert_pos r P _ _ hx (fun b _ hb => hclass x b hx hb), ih]
      simp [List.filter_cons, hx]

/-! ### Helper lemmas about the loading set and the cache -/

theorem mem_setAdd (l : List String) (a x : String) :
    x ∈ setAdd l a ↔ x ∈ l ∨ x = a := by
  unfold setAdd
  by_cases h : l.contains a = true
  · rw [if_pos h]
    constructor
    · exact Or.inl
    · rintro (hx | rfl)
      · exact hx
      · exact List.elem_iff.mp h
  · rw [if_neg h]
    simp

theorem mem_foldl_setAdd (ids l : List String) (x : String) :
    x ∈ ids.foldl setAdd l ↔ x ∈ l ∨ x ∈ ids := by
  induction ids generalizing l with
  | nil => simp
  | cons a ids ih =>
    rw [List.foldl_cons, ih]
    simp [mem_setAdd, or_assoc]

theorem mem_setDelete (l : List String) (a x : String) :
    x ∈ setDelete l a ↔ x ∈ l ∧ x ≠ a := by
  unfold setDelete
  simp [List.mem_filter]

theorem mem_foldl_setDelete (ids l : List String) (x : String) :
    x ∈ ids.foldl setDelete l ↔ x ∈ l ∧ x ∉ ids := by
  induction ids generalizing l with
  | nil => simp
  | cons a ids ih =>
    rw [List.foldl_cons, ih]
    simp [mem_setDelete, and_assoc, not_or]

theorem cacheGet_eq_none_iff (c : Cache) (id : String) :
    cacheGet c id = none ↔ cacheHas c id = false := by
  unfold cacheGet cacheHas
  cases h : c.find? (fun e => e.1 == id) <;> simp [h]

theorem find?_entry_cons_pos (key : String) (e : String × List Transition)
    (l : List (String × List Transition)) (h : e.1 = key) :
    List.find? (fun x => x.1 == key) (e :: l) = some e :=
  List.find?_cons_of_pos _ (by simp [h])

theorem find?_entry_cons_neg (key : String) (e : String × List Transition)
    (l : List (String × List Transition)) (h : ¬e.1 = key) :
    List.find? (fun x => x.1 == key) (e :: l) = List.find? (fun x => x.1 == key) l :=
  List.find?_cons_of_neg _ (by simp [h])

theorem cacheGet_mapSet_ne (c : Cache) (k : String) (v : List Transition)
    (id : String) (hid : k ≠ id) :
    cacheGet (c.map (fun e => if e.1 == k then (k, v) else e)) id = cacheGet c id := by
  induction c with
  | nil => rfl
  | cons e c ih =>
    unfold cacheGet at ih ⊢
    rw [List.map_cons]
    by_cases hk : e.1 = k
    · rw [if_pos (show (e.1 == k) = true by simp [hk]),
        find?_entry_cons_neg id (k, v) _ (by simp [hid]),
        find?_entry_cons_neg id e _ (by simp [hk, hid])]
      exact ih
    · rw [if_neg (show ¬(e.1 == k) = true by simp [hk])]
      by_cases he : e.1 = id
      · rw [find?_entry_cons_pos id e _ he, find?_entry_cons_pos id e _ he]
      · rw [find?_entry_cons_neg id e _ he, find?_entry_cons_neg id e _ he]
        exact ih

theorem cacheGet_mapSet_eq (c : Cache) (k : String) (v : List Transition) :
    cacheGet (c.map (fun e => if e.1 == k then (k, v) else e)) k
      = if cacheHas c k then some v else cacheGet c k := by
  induction c with
  | nil => rfl
  | cons e c ih =>
    unfold cacheGet cacheHas at ih ⊢
    rw [List.map_cons]
    by_cases hk : e.1 = k
    · rw [if_pos (show (e.1 == k) = true by simp [hk]),
        find?_entry_cons_pos k (k, v) _ rfl, find?_entry_cons_pos k e _ hk]
      simp
    · rw [if_neg (show ¬(e.1 == k) = true by simp [hk]),
        find?_entry_cons_neg k e _ hk, find?_entry_cons_neg k e _ hk]
      exact ih

theorem cacheGet_cacheSet (c : Cache) (k : String) (v : List Transition) (id : String) :
    cacheGet (cacheSet c k v) id = if k = id then some v else cacheGet c id := by
  unfold cacheSet
  by_cases hid : k = id
  · subst hid
    by_cases h : cacheHas c k
    · rw [if_pos h, cacheGet_mapSet_eq, if_pos h, if_pos rfl]
    · rw [if_neg h, if_pos rfl]
      unfold cacheGet
      rw [List.find?_append]
      have hnone : List.find? (fun e => e.1 == k) c = none := by
        cases hf : List.find? (fun e => e.1 == k) c with
        | none => rfl
        | some e => exact absurd (by simp [cacheHas, hf]) h
      rw [hnone]
      simp [List.find?]
  · by_cases h : cacheHas c k
    · rw [if_pos h, cacheGet_mapSet_ne c k v id hid, if_neg hid]
    · rw [if_neg h, if_neg hid]
      unfold cacheGet
      rw [List.find?_append]
      have hone : List.find? (fun e => e.1 == id) [(k, v)] = none := by
        rw [find?_entry_cons_neg id (k, v) _ (by simp [hid])]
        rfl
      rw [hone]
      cases List.find? (fun e => e.1 == id) c <;> simp

/-- The value for `id` carried by a backend response object, under JS object
entry semantics (a later entry for the same key overwrites an earlier one,
hence the search over the reversed entry list). -/
def dataGet (data : List (String × List Transition)) (id : String) :
    Option (List Transition) :=
  (data.reverse.find? (fun e => e.1 == id)).map (fun e => e.2)

theorem cacheGet_foldl_cacheSet (data : List (String × List Transition))
    (c : Cache) (id : String) :
    cacheGet (data.foldl (fun a e => cacheSet a e.1 e.2) c) id
      = match dataGet data id with
        | some v => some v
        | none => cacheGet c id := by
  induction data generalizing c with
  | nil => simp [dataGet]
  | cons e data ih =>
    rw [List.foldl_cons, ih]
    have hrev : dataGet (e :: data) id
        = match dataGet data id with
          | some v => some v
          | none => if e.1 = id then some e.2 else none := by
      unfold dataGet
      rw [List.reverse_cons, List.find?_append]
      cases hf : List.find? (fun x => x.1 == id) data.reverse with
      | some x => simp [Option.or, hf]
      | none =>
          by_cases he : e.1 = id
          · rw [find?_entry_cons_pos id e _ he]
            simp [Option.or, hf, he]
          · rw [find?_entry_cons_neg id e _ he]
            simp [Option.or, hf, he]
    rw [hrev, cacheGet_cacheSet]
    cases dataGet data id with
    | some v => rfl
    | none =>
        by_cases he : e.1 = id
        · simp [he]
        · simp [he]

theorem mem_uncachedIdsOf (s : CtxState) (ids : List String) (id : String) :
    id ∈ uncachedIdsOf s ids ↔
      id ∈ ids ∧ cacheGet s.transitionsCache id = none ∧ id ∉ s.loadingLeadIds := by
  unfold uncachedIdsOf
  rw [List.mem_filter]
  have hb : (!cacheHas s.transitionsCache id && !s.loadingLeadIds.contains id) = true
      ↔ (cacheHas s.transitionsCache id = false ∧
          s.loadingLeadIds.contains id = false) := by
    cases cacheHas s.transitionsCache id <;> cases s.loadingLeadIds.contains id <;> simp
  have hc : s.loadingLeadIds.contains id = false ↔ id ∉ s.loadingLeadIds := by
    constructor
    · intro hx hmem
      have h2 : s.loadingLeadIds.contains id = true := List.elem_iff.mpr hmem
      rw [hx] at h2
      simp at h2
    · intro hx
      cases hy : s.loadingLeadIds.contains id with
      | false => rfl
      | true => exact absurd (List.elem_iff.mp hy) hx
  rw [hb, cacheGet_eq_none_iff, hc]

theorem uncachedIdsOf_sub (s : CtxState) (ids : List String) :
    ∀ id ∈ uncachedIdsOf s ids, id ∈ ids := by
  intro id h
  exact ((mem_uncachedIdsOf s ids id).mp h).1

/-- On the fetching path, the final state of a complete uninterleaved run. -/
theorem loadTransitionsForLeads_state (s : CtxState) (ids : List String)
    (resp : List String → APIResult)
    (h : (uncachedIdsOf s ids).isEmpty = false) :
    (loadTransitionsForLeads s ids resp).1 =
      { transitionsCache :=
          match resp (uncachedIdsOf s ids) with
          | .success data =>
              data.foldl (fun c e => cacheSet c e.1 e.2) s.transitionsCache
          | .failure _ => s.transitionsCache,
        loadingLeadIds :=
          (uncachedIdsOf s ids).foldl setDelete
            ((uncachedIdsOf s ids).foldl setAdd s.loadingLeadIds),
        loadingBatch := false } := by
  have hids : ids.isEmpty = false := by
    cases ids with
    | nil => simp [uncachedIdsOf] at h
    | cons a l => rfl
  unfold loadTransitionsForLeads loadBatchPhase1 loadBatchPhase2
  rw [hids]
  simp only [Bool.false_eq_true, if_false, h]
  cases hr : resp (uncachedIdsOf s ids) <;> rfl

/-- On the fetching path, the network request carries exactly the uncached
subset. -/
theorem loadTransitionsForLeads_call (s : CtxState) (ids : List String)
    (resp : List String → APIResult) :
    (loadTransitionsForLeads s ids resp).2 =
      if (uncachedIdsOf s ids).isEmpty then none else some (uncachedIdsOf s ids) := by
  unfold loadTransitionsForLeads loadBatchPhase1 loadBatchPhase2
  cases hids : ids.isEmpty with
  | true =>
      have hu : uncachedIdsOf s ids = [] := by
        cases ids with
        | nil => rfl
        | cons a l => simp at hids
      simp [hu]
  | false =>
      cases h : (uncachedIdsOf s ids).isEmpty with
      | true => simp [h]
      | false => simp [h]

/-- When nothing needs fetching, the run leaves the state untouched. -/
theorem loadTransitionsForLeads_state_nil (s : CtxState) (ids : List String)
    (resp : List String → APIResult)
    (h : (uncachedIdsOf s ids).isEmpty = true) :
    (loadTransitionsForLeads s ids resp).1 = s := by
  unfold loadTransitionsForLeads loadBatchPhase1 loadBatchPhase2
  cases hids : ids.isEmpty with
  | true => simp
  | false => simp [h]

/-! ### Claim theorems -/

/-- C4: for every current status in the ten-value catalog and every list of
outgoing edges, the ranked option list produced by `rankOptions` has length
exactly `|catalog| - 1`, contains no duplicate `to_status` values, and
contains no entry whose `to_status` equals the current status. -/
theorem C4_rank_length_nodup (current : String)
    (hc : current ∈ LEAD_STATUS_VALUES) (ts : List Transition) :
    (rankOptions current ts).length = LEAD_STATUS_VALUES.length - 1 ∧
    ((rankOptions current ts).map StatusOption.to_status).Nodup ∧
    ∀ o ∈ rankOptions current ts, o.to_status ≠ current := by
  have hperm := rankOptions_perm current ts
  refine ⟨?_, ?_, ?_⟩
  · rw [hperm.length_eq]
    unfold buildOptions
    rw [List.length_map]
    simp only [LEAD_STATUS_VALUES, List.mem_cons, List.not_mem_nil, or_false] at hc
    rcases hc with rfl | rfl | rfl | rfl | rfl | rfl | rfl | rfl | rfl | rfl <;> rfl
  · have hmap : ((rankOptions current ts).map StatusOption.to_status).Perm
        (LEAD_STATUS_VALUES.filter (fun s => s ≠ current)) := by
      rw [← map_to_status_buildOptions current ts]
      exact hperm.map _
    exact hmap.symm.nodup
      (List.Nodup.filter _ (by decide : LEAD_STATUS_VALUES.Nodup))
  · intro o ho
    rcases (mem_buildOptions current ts o).mp (hperm.mem_iff.mp ho) with ⟨s, _, hne, rfl⟩
    rw [to_status_buildOption]
    exact hne

/-- Witness for C4: the catalog status "prospect_found" with an empty edge
list. -/
theorem C4_rank_length_nodup_witness :
    "prospect_found" ∈ LEAD_STATUS_VALUES ∧
    ((rankOptions "prospect_found" []).length = LEAD_STATUS_VALUES.length - 1 ∧
     ((rankOptions "prospect_found" []).map StatusOption.to_status).Nodup ∧
     ∀ o ∈ rankOptions "prospect_found" [], o.to_status ≠ "prospect_found") :=
  ⟨by decide, C4_rank_length_nodup "prospect_found" (by decide) []⟩

/-- C5: the ranked list is sorted so that all valid entries precede all
invalid ones and weight is non-increasing within each validity group
(first conjunct); and the invalid entries, which all carry weight `0`, appear
in exactly the order the catalog produced them — the comparator ties them and
the sort is stable (second conjunct). -/
theorem C5_rank_sorted (current : String) (ts : List Transition) :
    (rankOptions current ts).Pairwise
      (fun a b => (b.isValid = true → a.isValid = true) ∧
        (a.isValid = b.isValid → b.weight ≤ a.weight)) ∧
    (rankOptions current ts).filter (fun o => !o.isValid)
      = (buildOptions current ts).filter (fun o => !o.isValid) := by
  have hinval : ∀ o ∈ buildOptions current ts, o.isValid = false → o.weight = 0 := by
    intro o ho hov
    rcases (mem_buildOptions current ts o).mp ho with ⟨s, _, _, rfl⟩
    exact weight_buildOption ts s hov
  constructor
  · have hs := List.sorted_insertionSort optionLE (buildOptions current ts)
    refine List.Pairwise.imp ?_ hs
    intro a b hab
    unfold optionLE at hab
    constructor
    · intro hbv
      rcases hab with ⟨_, hbv2⟩ | ⟨heq, _⟩
      · rw [hbv] at hbv2
        simp at hbv2
      · rw [heq]
        exact hbv
    · intro heq
      rcases hab with ⟨hav, hbv⟩ | ⟨_, hw⟩
      · rw [hav, hbv] at heq
        simp at heq
      · exact hw
  · have hP : ∀ x y, (!x.isValid && x.weight == 0) = true →
        (!y.isValid && y.weight == 0) = true → optionLE x y := by
      intro x y hx hy
      simp only [Bool.and_eq_true, Bool.not_eq_true', beq_iff_eq] at hx hy
      exact Or.inr ⟨hx.1.trans hy.1.symm, by rw [hx.2, hy.2]⟩
    have hstable := filter_insertionSort optionLE
      (fun o => !o.isValid && o.weight == 0) hP (buildOptions current ts)
    have h1 : (buildOptions current ts).filter (fun o => !o.isValid && o.weight == 0)
        = (buildOptions current ts).filter (fun o => !o.isValid) :=
      List.filter_congr (by
        intro o ho
        cases hov : o.isValid with
        | true => simp
        | false => simp [hinval o ho hov])
    have h2 : (rankOptions current ts).filter (fun o => !o.isValid && o.weight == 0)
        = (rankOptions current ts).filter (fun o => !o.isValid) :=
      List.filter_congr (by
        intro o ho
        have hob : o ∈ buildOptions current ts :=
          (rankOptions_perm current ts).mem_iff.mp ho
        cases hov : o.isValid with
        | true => simp
        | false => simp [hinval o hob hov])
    rw [← h2, ← h1]
    exact hstable

/-- C10: when the current status of the lead is not a member of the ten-value
catalog, the filter `status !== lead.status` removes nothing, so the option
list has length exactly `|catalog| = 10` and covers every catalog status; the
`|catalog| - 1` invariant of C4 therefore needs the membership
precondition. -/
theorem C10_rank_outside_catalog (current : String) (ts : List Transition)
    (hc : current ∉ LEAD_STATUS_VALUES) :
    (rankOptions current ts).length = LEAD_STATUS_VALUES.length ∧
    ∀ s ∈ LEAD_STATUS_VALUES, ∃ o ∈ rankOptions current ts, o.to_status = s := by
  have hfil : LEAD_STATUS_VALUES.filter (fun s => s ≠ current) = LEAD_STATUS_VALUES :=
    List.filter_eq_self.mpr (by
      intro a ha
      simp
      rintro rfl
      exact hc ha)
  constructor
  · rw [(rankOptions_perm current ts).length_eq]
    unfold buildOptions
    rw [List.length_map, hfil]
  · intro s hs
    refine ⟨buildOption ts s, ?_, to_status_buildOption ts s⟩
    rw [(rankOptions_perm current ts).mem_iff]
    unfold buildOptions
    rw [hfil]
    exact List.mem_map_of_mem _ hs

/-- Witness for C10: the out-of-catalog status "bogus" with an empty edge
list. -/
theorem C10_rank_outside_catalog_witness :
    "bogus" ∉ LEAD_STATUS_VALUES ∧
    ((rankOptions "bogus" []).length = LEAD_STATUS_VALUES.length ∧
     ∀ s ∈ LEAD_STATUS_VALUES, ∃ o ∈ rankOptions "bogus" [], o.to_status = s) :=
  ⟨by decide, C10_rank_outside_catalog "bogus" [] (by decide)⟩

/-- C9: the function `loadStatusOptions` of the widget issues the fallback
individual fetch exactly when the cache entry of the lead is absent and the
lead is not marked
loading; in particular a lead that is absent but loading does not trigger the
fallback. -/
theorem C9_fallback_only_when_absent_and_not_loading (s : CtxState) (lead : Lead) :
    loadStatusOptions s lead = LoadAction.fallback ↔
      getTransitionsForLead s lead.id = none ∧ isLeadLoading s lead.id = false := by
  unfold loadStatusOptions
  cases hg : getTransitionsForLead s lead.id with
  | some ts => simp [hg]
  | none =>
      cases hl : isLeadLoading s lead.id with
      | true => simp [hl]
      | false => simp [hl]

/-- C7: when the batch network call fails (a `success: false` result or a
thrown error caught by the loader), the cache is left untouched (no partial
data), the loading set is restored so the requested ids return to absent and
a later request retries, and the run returns normally — the embedding of the
handler is a total function into `CtxState`, the error is only logged. -/
theorem C7_failure_nonfatal (s : CtxState) (ids : List String)
    (resp : List String → APIResult) (err : String)
    (hresp : resp (uncachedIdsOf s ids) = APIResult.failure err) :
    (loadTransitionsForLeads s ids resp).1.transitionsCache = s.transitionsCache ∧
    (∀ x, x ∈ (loadTransitionsForLeads s ids resp).1.loadingLeadIds ↔
      x ∈ s.loadingLeadIds) ∧
    ∀ id ∈ uncachedIdsOf s ids,
      getTransitionsForLead (loadTransitionsForLeads s ids resp).1 id = none ∧
      isLeadLoading (loadTransitionsForLeads s ids resp).1 id = false := by
  cases hni : (uncachedIdsOf s ids).isEmpty with
  | true =>
      rw [loadTransitionsForLeads_state_nil s ids resp hni]
      refine ⟨rfl, fun x => Iff.rfl, ?_⟩
      intro id hid
      rw [List.isEmpty_iff] at hni
      rw [hni] at hid
      cases hid
  | false =>
      have hstate := loadTransitionsForLeads_state s ids resp hni
      rw [hresp] at hstate
      have hloadmem : ∀ x,
          x ∈ (loadTransitionsForLeads s ids resp).1.loadingLeadIds ↔
            x ∈ s.loadingLeadIds := by
        intro x
        rw [hstate]
        show x ∈ (uncachedIdsOf s ids).foldl setDelete
            ((uncachedIdsOf s ids).foldl setAdd s.loadingLeadIds) ↔ _
        rw [mem_foldl_setDelete, mem_foldl_setAdd]
        constructor
        · rintro ⟨hx | hx, hnx⟩
          · exact hx
          · exact absurd hx hnx
        · intro hx
          refine ⟨Or.inl hx, ?_⟩
          intro hu
          exact ((mem_uncachedIdsOf s ids x).mp hu).2.2 hx
      refine ⟨?_, hloadmem, ?_⟩
      · rw [hstate]
      · intro id hid
        have hfacts := (mem_uncachedIdsOf s ids id).mp hid
        constructor
        · show cacheGet (loadTransitionsForLeads s ids resp).1.transitionsCache id = none
          rw [hstate]
          exact hfacts.2.1
        · show (loadTransitionsForLeads s ids resp).1.loadingLeadIds.contains id = false
          cases hx : (loadTransitionsForLeads s ids resp).1.loadingLeadIds.contains id with
          | false => rfl
          | true =>
              exact absurd ((hloadmem id).mp (List.elem_iff.mp hx)) hfacts.2.2

/-- Witness for C7: a failing batch for lead "A" from the empty state. -/
theorem C7_failure_nonfatal_witness :
    ((fun _ => APIResult.failure "boom") (uncachedIdsOf initialCtx ["A"])
        = APIResult.failure "boom") ∧
    ((loadTransitionsForLeads initialCtx ["A"] (fun _ => APIResult.failure "boom")).1.transitionsCache
        = initialCtx.transitionsCache ∧
     (∀ x, x ∈ (loadTransitionsForLeads initialCtx ["A"]
          (fun _ => APIResult.failure "boom")).1.loadingLeadIds ↔
        x ∈ initialCtx.loadingLeadIds) ∧
     ∀ id ∈ uncachedIdsOf initialCtx ["A"],
       getTransitionsForLead (loadTransitionsForLeads initialCtx ["A"]
          (fun _ => APIResult.failure "boom")).1 id = none ∧
       isLeadLoading (loadTransitionsForLeads initialCtx ["A"]
          (fun _ => APIResult.failure "boom")).1 id = false) :=
  ⟨rfl, C7_failure_nonfatal initialCtx ["A"] (fun _ => APIResult.failure "boom") "boom" rfl⟩

/-- The backend response used for the C2 scenario: edges only for L1. -/
def c2Resp : List String → APIResult :=
  fun _ => APIResult.success [("L1", [⟨"contacted", 80, "d1"⟩])]

/-- C2 counterexample: `loadBatch(["L1","L2"])` from the empty state, with the
backend returning edges only for "L1", leaves "L2" absent (null cache read)
and not loading — the claim requires it to be populated with a default
all-invalid option list. -/
theorem C2_counterexample :
    (loadTransitionsForLeads initialCtx ["L1", "L2"] c2Resp).2 = some ["L1", "L2"] ∧
    getTransitionsForLead (loadTransitionsForLeads initialCtx ["L1", "L2"] c2Resp).1 "L2"
      = none ∧
    isLeadLoading (loadTransitionsForLeads initialCtx ["L1", "L2"] c2Resp).1 "L2" = false ∧
    getTransitionsForLead (loadTransitionsForLeads initialCtx ["L1", "L2"] c2Resp).1 "L1"
      = some [⟨"contacted", 80, "d1"⟩] := by
  decide

/-- C2 amended: on a successful batch response, a requested uncached id whose
key appears in the response object is populated with its returned transition
list (latest entry wins), while an id the backend omitted is left absent and
not loading — it is not populated with a default option list. -/
theorem C2_amended_only_returned_ids_populated (s : CtxState) (ids : List String)
    (resp : List String → APIResult) (data : List (String × List Transition))
    (hresp : resp (uncachedIdsOf s ids) = APIResult.success data)
    (id : String) (hid : id ∈ uncachedIdsOf s ids) :
    (∀ v, dataGet data id = some v →
      getTransitionsForLead (loadTransitionsForLeads s ids resp).1 id = some v) ∧
    (dataGet data id = none →
      getTransitionsForLead (loadTransitionsForLeads s ids resp).1 id = none ∧
      isLeadLoading (loadTransitionsForLeads s ids resp).1 id = false) := by
  have hni : (uncachedIdsOf s ids).isEmpty = false := by
    cases hu : uncachedIdsOf s ids with
    | nil => rw [hu] at hid; cases hid
    | cons a l => rfl
  have hfacts := (mem_uncachedIdsOf s ids id).mp hid
  have hstate := loadTransitionsForLeads_state s ids resp hni
  rw [hresp] at hstate
  have hget : getTransitionsForLead (loadTransitionsForLeads s ids resp).1 id
      = match dataGet data id with
        | some v => some v
        | none => none := by
    show cacheGet (loadTransitionsForLeads s ids resp).1.transitionsCache id = _
    rw [hstate]
    show cacheGet (data.foldl (fun c e => cacheSet c e.1 e.2) s.transitionsCache) id = _
    rw [cacheGet_foldl_cacheSet]
    cases dataGet data id with
    | some v => rfl
    | none => exact hfacts.2.1
  constructor
  · intro v hv
    rw [hget, hv]
  · intro hnone
    refine ⟨by rw [hget, hnone], ?_⟩
    show (loadTransitionsForLeads s ids resp).1.loadingLeadIds.contains id = false
    cases hx : (loadTransitionsForLeads s ids resp).1.loadingLeadIds.contains id with
    | false => rfl
    | true =>
        have hmem := List.elem_iff.mp hx
        rw [hstate] at hmem
        have h2 : id ∈ (uncachedIdsOf s ids).foldl setDelete
            ((uncachedIdsOf s ids).foldl setAdd s.loadingLeadIds) := hmem
        rw [mem_foldl_setDelete] at h2
        exact absurd hid h2.2

/-- Witness for C2: lead "L2" requested but omitted from the successful
response (and "L1" present in it). -/
theorem C2_amended_only_returned_ids_populated_witness :
    (c2Resp (uncachedIdsOf initialCtx ["L1", "L2"])
        = APIResult.success [("L1", [⟨"contacted", 80, "d1"⟩])]) ∧
    "L2" ∈ uncachedIdsOf initialCtx ["L1", "L2"] ∧
    ((∀ v, dataGet [("L1", [⟨"contacted", 80, "d1"⟩])] "L2" = some v →
        getTransitionsForLead (loadTransitionsForLeads initialCtx ["L1", "L2"] c2Resp).1 "L2"
          = some v) ∧
     (dataGet [("L1", [⟨"contacted", 80, "d1"⟩])] "L2" = none →
        getTransitionsForLead (loadTransitionsForLeads initialCtx ["L1", "L2"] c2Resp).1 "L2"
          = none ∧
        isLeadLoading (loadTransitionsForLeads initialCtx ["L1", "L2"] c2Resp).1 "L2" = false)) :=
  ⟨rfl, by decide,
   C2_amended_only_returned_ids_populated initialCtx ["L1", "L2"] c2Resp
     [("L1", [⟨"contacted", 80, "d1"⟩])] rfl "L2" (by decide)⟩

/-- C6: (i) a run of `loadTransitionsForLeads` issues a network call exactly
when the requested subset that is neither cached nor loading is non-empty,
and the call carries exactly that subset — no call at all when it is empty;
(ii) in particular, after a completed successful `loadBatch(["A","B"])` whose
response has entries for "A" and "B" but none for "C", a subsequent
`loadBatch(["A","B","C"])` issues exactly one further call carrying only
`["C"]`. -/
theorem C6_no_redundant_fetch (s : CtxState) (ids : List String)
    (resp resp2 : List String → APIResult)
    (data1 : List (String × List Transition))
    (h1 : resp ["A", "B"] = APIResult.success data1)
    (hA : dataGet data1 "A" ≠ none) (hB : dataGet data1 "B" ≠ none)
    (hC : dataGet data1 "C" = none) :
    ((loadTransitionsForLeads s ids resp2).2 =
      if (uncachedIdsOf s ids).isEmpty then none
      else some (uncachedIdsOf s ids)) ∧
    (loadTransitionsForLeads
        (loadTransitionsForLeads initialCtx ["A", "B"] resp).1
        ["A", "B", "C"] resp2).2 = some ["C"] := by
  refine ⟨loadTransitionsForLeads_call s ids resp2, ?_⟩
  have hu1 : uncachedIdsOf initialCtx ["A", "B"] = ["A", "B"] := rfl
  have hstate := loadTransitionsForLeads_state initialCtx ["A", "B"] resp
    (by rw [hu1]; rfl)
  rw [hu1, h1] at hstate
  have hstate2 : (loadTransitionsForLeads initialCtx ["A", "B"] resp).1 =
      ⟨data1.foldl (fun c e => cacheSet c e.1 e.2) [], [], false⟩ := by
    rw [hstate]
    rfl
  have hhasA : cacheHas (data1.foldl (fun c e => cacheSet c e.1 e.2) []) "A" = true := by
    cases hx : cacheHas (data1.foldl (fun c e => cacheSet c e.1 e.2) []) "A" with
    | true => rfl
    | false =>
        have hn := (cacheGet_eq_none_iff _ _).mpr hx
        rw [cacheGet_foldl_cacheSet] at hn
        cases hd : dataGet data1 "A" with
        | some v => rw [hd] at hn; cases hn
        | none => exact absurd hd hA
  have hhasB : cacheHas (data1.foldl (fun c e => cacheSet c e.1 e.2) []) "B" = true := by
    cases hx : cacheHas (data1.foldl (fun c e => cacheSet c e.1 e.2) []) "B" with
    | true => rfl
    | false =>
        have hn := (cacheGet_eq_none_iff _ _).mpr hx
        rw [cacheGet_foldl_cacheSet] at hn
        cases hd : dataGet data1 "B" with
        | some v => rw [hd] at hn; cases hn
        | none => exact absurd hd hB
  have hhasC : cacheHas (data1.foldl (fun c e => cacheSet c e.1 e.2) []) "C" = false := by
    rw [← cacheGet_eq_none_iff, cacheGet_foldl_cacheSet, hC]
    rfl
  have hu2 : uncachedIdsOf
      ⟨data1.foldl (fun c e => cacheSet c e.1 e.2) [], [], false⟩
      ["A", "B", "C"] = ["C"] := by
    unfold uncachedIdsOf
    simp only [List.filter_cons, List.filter_nil]
    simp [hhasA, hhasB, hhasC]
  rw [hstate2, loadTransitionsForLeads_call, hu2]
  rfl

/-- Witness for C6: a backend that answers `["A","B"]` with entries for "A"
and "B" and nothing else. -/
theorem C6_no_redundant_fetch_witness :
    ((fun _ => APIResult.success [("A", []), ("B", [])]) ["A", "B"]
        = APIResult.success [("A", []), ("B", [])]) ∧
    dataGet [("A", []), ("B", [])] "A" ≠ none ∧
    dataGet [("A", []), ("B", [])] "B" ≠ none ∧
    dataGet [("A", []), ("B", [])] "C" = none ∧
    (((loadTransitionsForLeads initialCtx []
          (fun _ => APIResult.failure "unused")).2 =
        if (uncachedIdsOf initialCtx []).isEmpty then none
        else some (uncachedIdsOf initialCtx [])) ∧
      (loadTransitionsForLeads
          (loadTransitionsForLeads initialCtx ["A", "B"]
            (fun _ => APIResult.success [("A", []), ("B", [])])).1
          ["A", "B", "C"] (fun _ => APIResult.failure "unused")).2 = some ["C"]) :=
  ⟨rfl, by decide, by decide, by decide,
   C6_no_redundant_fetch initialCtx []
     (fun _ => APIResult.success [("A", []), ("B", [])])
     (fun _ => APIResult.failure "unused")
     [("A", []), ("B", [])] rfl (by decide) (by decide) (by decide)⟩

/-- C3 (refuted by the code): two `loadTransitionsForLeads(["A"])` invocations
whose closures share the same render snapshot (here the initial state), the
second scheduled before the network response of the first arrives, issue TWO
network calls for "A".  The functional
`setLoadingLeadIds` update of the first invocation does land in the
authoritative state before the
`await` (second conjunct), but the second invocation computes
`uncachedLeadIds` from the stale `loadingLeadIds` snapshot of its closure, so the
loading mark is not visible to it and it fetches again — against the claim
that exactly one call is issued. -/
theorem C3_duplicate_fetch_same_snapshot :
    ((loadBatchPhase1 initialCtx ["A"]
        (loadBatchPhase1 initialCtx ["A"] ⟨initialCtx, []⟩).1).1).calls
      = [["A"], ["A"]] ∧
    ((loadBatchPhase1 initialCtx ["A"] ⟨initialCtx, []⟩).1).auth.loadingLeadIds
      = ["A"] := by
  decide

/-- The lead and the app state used for the C1 scenario: the transitions
cache holds an entry for lead "L1". -/
def c1Lead : Lead := ⟨"L1", "prospect_found"⟩

def c1App : AppState :=
  ⟨⟨[("L1", [⟨"contacted", 80, "d1"⟩])], [], false⟩, [c1Lead], false⟩

/-- C1 counterexample: a successful `handleStatusChange` of "L1" to
"contacted" updates the local lead status, yet `getTransitionsForLead("L1")`
still returns the previously cached entry — not `null` as the claim requires.
Nothing on the success path invalidates the cache (`clearCache` has no caller
in the repository, and `handleStatusUpdate` only rewrites the lead list). -/
theorem C1_counterexample :
    ((handleStatusChange c1App c1Lead "contacted" UpdateResult.success).1.leads.map
        Lead.status = ["contacted"]) ∧
    getTransitionsForLead
        (handleStatusChange c1App c1Lead "contacted" UpdateResult.success).1.ctx "L1"
      = some [⟨"contacted", 80, "d1"⟩] := by
  decide

/-- C1 amended: after a successful `handleStatusChange` whose guards pass,
every local lead with the matching id reads `newStatus` immediately, and the
updated lead is present when it was present before; but the transitions
context is left completely unchanged — the cache entry is NOT invalidated,
and `getTransitionsForLead` answers exactly as before the update, for every
lead id. -/
theorem C1_amended_local_update_no_invalidation (s : AppState) (lead : Lead)
    (newStatus : String) (hne : (newStatus == lead.status) = false)
    (hupd : s.updating = false) (hmem : lead ∈ s.leads) :
    (∀ l ∈ (handleStatusChange s lead newStatus UpdateResult.success).1.leads,
        l.id = lead.id → l.status = newStatus) ∧
    (∃ l ∈ (handleStatusChange s lead newStatus UpdateResult.success).1.leads,
        l.id = lead.id ∧ l.status = newStatus) ∧
    (handleStatusChange s lead newStatus UpdateResult.success).1.ctx = s.ctx ∧
    (∀ id, getTransitionsForLead
        (handleStatusChange s lead newStatus UpdateResult.success).1.ctx id
      = getTransitionsForLead s.ctx id) := by
  have hcond : (newStatus == lead.status || s.updating) = false := by
    rw [hne, hupd]
    rfl
  have hrun : handleStatusChange s lead newStatus UpdateResult.success
      = (⟨s.ctx, handleStatusUpdate s.leads lead.id newStatus, false⟩, true) := by
    unfold handleStatusChange
    rw [hcond]
    rfl
  rw [hrun]
  refine ⟨?_, ?_, rfl, fun id => rfl⟩
  · intro l hl hlid
    unfold handleStatusUpdate at hl
    rcases List.mem_map.mp hl with ⟨l0, hl0, rfl⟩
    by_cases h0 : l0.id = lead.id
    · rw [if_pos (show (l0.id == lead.id) = true by simp [h0])]
    · rw [if_neg (show ¬(l0.id == lead.id) = true by simp [h0])] at hlid
      exact absurd hlid h0
  · refine ⟨_, List.mem_map_of_mem
      (fun l => if l.id == lead.id then { l with status := newStatus } else l) hmem, ?_⟩
    simp

/-- Witness for C1 (amended) at the concrete scenario state. -/
theorem C1_amended_witness :
    (("contacted" == c1Lead.status) = false) ∧
    (c1App.updating = false) ∧ c1Lead ∈ c1App.leads ∧
    ((∀ l ∈ (handleStatusChange c1App c1Lead "contacted" UpdateResult.success).1.leads,
        l.id = c1Lead.id → l.status = "contacted") ∧
     (∃ l ∈ (handleStatusChange c1App c1Lead "contacted" UpdateResult.success).1.leads,
        l.id = c1Lead.id ∧ l.status = "contacted") ∧
     (handleStatusChange c1App c1Lead "contacted" UpdateResult.success).1.ctx = c1App.ctx ∧
     (∀ id, getTransitionsForLead
        (handleStatusChange c1App c1Lead "contacted" UpdateResult.success).1.ctx id
      = getTransitionsForLead c1App.ctx id)) :=
  ⟨by decide, rfl, by decide,
   C1_amended_local_update_no_invalidation c1App c1Lead "contacted"
     (by decide) rfl (by decide)⟩

/-- C8: `handleStatusChange` returns with the state untouched and no network
call whenever the chosen status equals the current status of the lead or an update
is already in flight; and `_setPropertyLeadStatus` rejects a status outside
the ten-value catalog by throwing in validation, before the RPC would be
issued. -/
theorem C8_guards_and_validation (s : AppState) (lead : Lead) (newStatus : String)
    (resp : UpdateResult) (leadId status : String) :
    ((newStatus = lead.status ∨ s.updating = true) →
      handleStatusChange s lead newStatus resp = (s, false)) ∧
    (status ∉ LEAD_STATUS_VALUES →
      ∀ out, setPropertyLeadStatus leadId status ≠ Except.ok out) := by
  constructor
  · intro h
    have hcond : (newStatus == lead.status || s.updating) = true := by
      rcases h with h | h
      · rw [h]
        simp
      · rw [h]
        simp
    unfold handleStatusChange
    rw [hcond]
    rfl
  · intro h out
    have hmem : LEAD_STATUS_VALUES.contains status = false := by
      cases hx : LEAD_STATUS_VALUES.contains status with
      | false => rfl
      | true => exact absurd (List.elem_iff.mp hx) h
    unfold setPropertyLeadStatus
    cases hu : isUuid leadId with
    | false => simp [hu]
    | true => simp [hu, h]

/-- Witness for C8: a no-op selection ("contacted" chosen while the lead is
already "contacted") and the out-of-catalog status "bogus". -/
theorem C8_guards_and_validation_witness :
    (handleStatusChange ⟨⟨[], [], false⟩, [⟨"L1", "contacted"⟩], false⟩
        ⟨"L1", "contacted"⟩ "contacted" (UpdateResult.failure "e")
      = (⟨⟨[], [], false⟩, [⟨"L1", "contacted"⟩], false⟩, false)) ∧
    ∀ out, setPropertyLeadStatus "not-a-uuid" "bogus" ≠ Except.ok out :=
  ⟨(C8_guards_and_validation ⟨⟨[], [], false⟩, [⟨"L1", "contacted"⟩], false⟩
      ⟨"L1", "contacted"⟩ "contacted" (UpdateResult.failure "e")
      "not-a-uuid" "bogus").1 (Or.inl rfl),
   (C8_guards_and_validation ⟨⟨[], [], false⟩, [⟨"L1", "contacted"⟩], false⟩
      ⟨"L1", "contacted"⟩ "contacted" (UpdateResult.failure "e")
      "not-a-uuid" "bogus").2 (by decide)⟩

end PropertyScout
